import Mathlib

/-!
Verification development for the DocVision billing core: a shallow embedding of
the subscription / ledger / order services
(`src/billing/subscription_service.py`, `src/billing/order_service.py`) over the
SQLite schema created by `src/core/db.py`, together with proofs and refutations
of the specification's claims about them.

Conventions of the embedding:
* SQLite rows become Lean structures; a table becomes a `List` of rows; the
  whole database becomes a `DB` record.  Machine integers are `Int`/`Nat`
  (SQLite INTEGER is arbitrary precision, no overflow), money is `ℚ`.
* Python `datetime.utcnow()` values are passed explicitly as a `DT` argument.
  `DT` models a calendar timestamp with `datetime`'s field-lexicographic
  comparison, `dateutil.relativedelta(months=k)` month addition (day clamped to
  the target month's length) and `timedelta` day arithmetic.
* Each service method becomes a pure function from the database (plus its
  arguments and `now`) to the resulting database, returning errors explicitly
  where the Python raises.
-/

namespace DocVision

/-! ## Calendar timestamps (`datetime.utcnow`, `relativedelta`, `timedelta`) -/

/-- A UTC timestamp: calendar date plus minute-of-day.  Mirrors the fields of
Python's `datetime` that the billing code compares and shifts (sub-minute
precision is never needed by the embedded code paths). -/
structure DT where
  year : Nat
  month : Nat
  day : Nat
  mins : Nat
  deriving DecidableEq, Repr

/-- Field-lexicographic strict order, as Python compares `datetime` values. -/
def DT.ltb (a b : DT) : Bool :=
  if a.year ≠ b.year then a.year < b.year
  else if a.month ≠ b.month then a.month < b.month
  else if a.day ≠ b.day then a.day < b.day
  else a.mins < b.mins

/-- Field-lexicographic order, `a ≤ b` on `datetime` values. -/
def DT.leb (a b : DT) : Bool := a == b || DT.ltb a b

/-- Gregorian leap-year rule. -/
def isLeap (y : Nat) : Bool := (y % 4 == 0 && y % 100 != 0) || y % 400 == 0

/-- Number of days in a month of the Gregorian calendar. -/
def daysInMonth (y m : Nat) : Nat :=
  if m == 2 then (if isLeap y then 29 else 28)
  else if m == 4 || m == 6 || m == 9 || m == 11 then 30
  else 31

/-- `dateutil.relativedelta(months = k)` addition: shift the month, clamping
the day-of-month to the length of the target month. -/
def DT.addMonths (t : DT) (k : Nat) : DT :=
  let tot := t.year * 12 + (t.month - 1) + k
  let y := tot / 12
  let m := tot % 12 + 1
  { t with year := y, month := m, day := min t.day (daysInMonth y m) }

/-- Calendar successor day (`timedelta(days = 1)` addition). -/
def DT.nextDay (t : DT) : DT :=
  if t.day < daysInMonth t.year t.month then { t with day := t.day + 1 }
  else if t.month < 12 then { t with month := t.month + 1, day := 1 }
  else { t with year := t.year + 1, month := 1, day := 1 }

/-- `t + timedelta(days = n)`. -/
def DT.addDays (t : DT) (n : Nat) : DT := Nat.repeat DT.nextDay n t

/-- Calendar predecessor day (`now - timedelta(days=1)`, the daily job's
`day_ago` and the usage-window bound). -/
def DT.subDay (t : DT) : DT :=
  if t.day > 1 then { t with day := t.day - 1 }
  else if t.month > 1 then
    { t with month := t.month - 1, day := daysInMonth t.year (t.month - 1) }
  else { t with year := t.year - 1, month := 12, day := 31 }

/-! ## Plan catalog (`src/core/conf.py`: `PLANS_CONFIG`, `PRICING`) -/

/-- The three plan identifiers admitted by the schema's CHECK constraint and by
`PLANS_CONFIG`. -/
inductive Plan
  | freeTrial
  | standard
  | pro
  deriving DecidableEq, Repr

/-- `PLANS_CONFIG[plan]["monthly_regeneration"]`. -/
def monthlyRegeneration : Plan → Int
  | .freeTrial => 30
  | .standard => 200
  | .pro => 300

/-- `PLANS_CONFIG[plan]["daily_regeneration"]`. -/
def dailyRegeneration : Plan → Int
  | .freeTrial => 0
  | .standard => 5
  | .pro => 10

/-- `PRICING.get(plan, 0)`: price per month; `PRICING` lists only the two paid
plans, so the trial plan falls back to the `.get` default `0`. -/
def PRICING : Plan → ℚ
  | .freeTrial => 0
  | .standard => 1000
  | .pro => 1500

/-! ## Order amount (`OrderService.calculate_order_amount`) -/

/-- Python's `round(x, 2)` over exact rationals: round `x * 100` to the nearest
integer, ties to the even integer (banker's rounding), divide back by 100. -/
def round2 (q : ℚ) : ℚ :=
  let n : Int := ⌊q * 100⌋
  let r : ℚ := q * 100 - n
  let k : Int :=
    if r < 1/2 then n
    else if 1/2 < r then n + 1
    else if n % 2 = 0 then n else n + 1
  (k : ℚ) / 100

/-- The discount chain of `calculate_order_amount`:
`0.20` for 12+ months, else `0.10` for 6+, else `0.05` for 3+, else `0`. -/
def orderDiscount (months : Nat) : ℚ :=
  if months ≥ 12 then 1/5
  else if months ≥ 6 then 1/10
  else if months ≥ 3 then 1/20
  else 0

/-- `OrderService.calculate_order_amount(plan, months)`:
`round(price_per_month * months * (1 - discount), 2)`.  The Python computation
is over floats, but every value reachable here (price ∈ {0, 1000, 1500});
discount ∈ {0, 5%, 10%, 20%}) yields an exact integer product, so the exact
rational computation coincides with the float one. -/
def calculate_order_amount (plan : Plan) (months : Nat) : ℚ :=
  let price := PRICING plan
  let total := price * months
  round2 (total * (1 - orderDiscount months))

/-- The discount schedule as the specification words it: by month ranges
`< 3`, `3–5`, `6–11`, `≥ 12`. -/
def specDiscount (months : Nat) : ℚ :=
  if months < 3 then 0
  else if months ≤ 5 then 1/20
  else if months ≤ 11 then 1/10
  else 1/5

/-! ## Data model (`src/models/billing.py`, schema in `src/core/db.py`) -/

/-- The `subscriptions.status` CHECK constraint / `Subscription.status`
literal: `active`, `cancelled`, `expired`. -/
inductive SubStatus
  | active
  | cancelled
  | expired
  deriving DecidableEq, Repr

/-- The `orders.status` CHECK constraint / `Order.status` literal:
`pending`, `paid`, `failed`, `cancelled`, `expired`. -/
inductive OrderStatus
  | pending
  | paid
  | failed
  | cancelled
  | expired
  deriving DecidableEq, Repr

/-- One row of the `subscriptions` table. -/
structure Subscription where
  id : String
  userId : String
  plan : Plan
  status : SubStatus
  ai_processing : Int
  last_monthly_regen : Option DT
  last_daily_regen : Option DT
  started_at : DT
  expires_at : Option DT
  cancelled_at : Option DT
  deriving DecidableEq, Repr

/-- One row of the `ai_processing_operations` ledger table. -/
structure LedgerOp where
  subscription_id : String
  amount : Int
  is_positive : Bool
  created_at : DT
  deriving DecidableEq, Repr

/-- The billing-relevant portion of the database: the `subscriptions` table and
the `ai_processing_operations` ledger table. -/
structure DB where
  subscriptions : List Subscription
  ops : List LedgerOp
  deriving DecidableEq, Repr

/-- The empty database, as left by `init_db`. -/
def emptyDB : DB := ⟨[], []⟩

/-- `SELECT ... FROM subscriptions WHERE user_id = ?` (first row). -/
def findSub (db : DB) (userId : String) : Option Subscription :=
  db.subscriptions.find? (fun s => s.userId == userId)

/-- Executemany `INSERT` of ledger-shaped rows into a named table.  `init_db`
(`src/core/db.py`) creates exactly one ledger table, `ai_processing_operations`
(the comment above its CREATE says `ai_usage_operations`, but the table is
named `ai_processing_operations`).  An INSERT aimed at any other table name
raises `sqlite3.OperationalError: no such table`; under `raise_http=False` and
`commit=False` the helper swallows the error and performs nothing, so the
database is returned unchanged. -/
def insertOpsMany (table : String) (entries : List LedgerOp) (db : DB) : DB :=
  if table == "ai_processing_operations" then { db with ops := db.ops ++ entries }
  else db

/-- Signed sum of the ledger entries of one subscription: credits
(`is_positive`) count positively, debits negatively. -/
def ledgerSum (db : DB) (sid : String) : Int :=
  db.ops.foldl
    (fun acc o =>
      if o.subscription_id == sid then
        (if o.is_positive then acc + o.amount else acc - o.amount)
      else acc)
    0

/-- The accounting invariant of the specification: every subscription's stored
balance equals the signed sum of its ledger entries. -/
def ledgerInvariant (db : DB) : Prop :=
  ∀ s ∈ db.subscriptions, s.ai_processing = ledgerSum db s.id

instance (db : DB) : Decidable (ledgerInvariant db) := by
  unfold ledgerInvariant; infer_instance

/-- Balance of the subscription row with the given id, if present
(`SELECT ai_processing FROM subscriptions WHERE id = ?`). -/
def getBal (db : DB) (sid : String) : Option Int :=
  (db.subscriptions.find? (fun s => s.id == sid)).map (fun s => s.ai_processing)

/-- The `last_monthly_regen` column of the subscription row with the given
id, if the row is present. -/
def getLastMonthly (db : DB) (sid : String) : Option (Option DT) :=
  (db.subscriptions.find? (fun s => s.id == sid)).map (fun s => s.last_monthly_regen)

/-- The `last_daily_regen` column of the subscription row with the given id,
if the row is present. -/
def getLastDaily (db : DB) (sid : String) : Option (Option DT) :=
  (db.subscriptions.find? (fun s => s.id == sid)).map (fun s => s.last_daily_regen)

/-! ## `SubscriptionService.create_subscription` -/

/-- `SubscriptionService.create_subscription(user_id, plan, months)`: computes
the expiry (7 fixed days for the trial plan; `now + relativedelta(months)` when
`months` is truthy, i.e. present and non-zero; otherwise NULL), then inserts
one positive ledger entry for the plan's `monthly_regeneration` and the
subscription row with that starting balance.  `subscription_id` stands for the
generated `uuid4`. -/
def create_subscription (db : DB) (subscription_id userId : String) (plan : Plan)
    (months : Option Nat) (now : DT) : DB :=
  let expires : Option DT :=
    if plan = Plan.freeTrial then some (now.addDays 7)
    else match months with
      | some m => if m = 0 then none else some (now.addMonths m)
      | none => none
  let mr := monthlyRegeneration plan
  { db with
    ops := db.ops ++ [⟨subscription_id, mr, true, now⟩],
    subscriptions := db.subscriptions ++
      [⟨subscription_id, userId, plan, SubStatus.active, mr, some now, none, now, expires, none⟩] }

/-! ## `SubscriptionService.save_ai_usage_operation` (spend) -/

/-- Classification of the guard that fires inside
`save_ai_usage_operation`'s `try` block:
* `notFound`: `fetch_one` finds no subscription row and raises
  `HTTPException(404, "No data was found")` (`db.py` line 323);
* `forbidden`: `status != "active"` raises `HTTPException(403)`;
* `insufficientBalance`: `balance < amount` raises `HTTPException(403)`. -/
inductive FailKind
  | notFound
  | forbidden
  | insufficientBalance
  deriving DecidableEq, Repr

/-- What the caller of `save_ai_usage_operation` actually receives when a guard
fires.  Every guard exception is caught by the function's blanket
`except Exception` handler:
* on the `notFound` path the handler's f-string reads the local `sub_id`,
  which was never assigned, so an `UnboundLocalError` (a `NameError`) escapes
  instead of any `HTTPException` — modelled as `nameError`;
* on the other paths the handler raises a fresh
  `HTTPException(500, "[AIUsage ERROR] ...")` whose detail embeds the original
  message — modelled as `http 500` tagged with the originating guard. -/
inductive SpendError
  | nameError
  | http (statusCode : Nat) (origin : FailKind)
  deriving DecidableEq, Repr

/-- The body of `save_ai_usage_operation`'s `try` block: look up the
subscription by user id, check status and balance, and on success append the
debit ledger entry and decrement the balance in one transaction. -/
def spendInner (db : DB) (userId : String) (amount : Int) (now : DT) :
    (Option FailKind) × DB :=
  match findSub db userId with
  | none => (some FailKind.notFound, db)
  | some sub =>
    if sub.status ≠ SubStatus.active then (some FailKind.forbidden, db)
    else if sub.ai_processing < amount then (some FailKind.insufficientBalance, db)
    else
      (none,
        { db with
          ops := db.ops ++ [⟨sub.id, amount, false, now⟩],
          subscriptions := db.subscriptions.map (fun s =>
            if s.id == sub.id then { s with ai_processing := s.ai_processing - amount }
            else s) })

/-- `SubscriptionService.save_ai_usage_operation(user_id, amount)`: the `try`
body wrapped by the blanket `except Exception` handler.  A fired guard reaches
the handler, which rolls back (leaving the database unchanged — nothing was
written yet) and re-raises per `SpendError`.  The result pairs the surfaced
error (`none` on success) with the database after the call. -/
def save_ai_usage_operation (db : DB) (userId : String) (amount : Int) (now : DT) :
    (Option SpendError) × DB :=
  match spendInner db userId amount now with
  | (none, db') => (none, db')
  | (some FailKind.notFound, db') => (some SpendError.nameError, db')
  | (some k, db') => (some (SpendError.http 500 k), db')

/-! ## `SubscriptionService.regenerate_daily_ai_processing` -/

/-- Total debits of one subscription inside the 24-hour usage window: the
`SUM(amount) ... WHERE is_positive = 0 AND created_at > day_ago GROUP BY
subscription_id` aggregate, read for one subscription id (0 when the group is
absent, matching the job's `.get(subscription_id, 0)`). -/
def dailyUsage (db : DB) (dayAgo : DT) (sid : String) : Int :=
  (db.ops.filter (fun o =>
      o.subscription_id == sid && o.is_positive == false && DT.ltb dayAgo o.created_at)).foldl
    (fun acc o => acc + o.amount) 0

/-- One subscription's treatment by the daily job's loop: `none` when the
subscription is skipped (`continue`), `some inc` when the loop batches a grant
of `inc` for it.  The skips, in source order: trial plan; `last_daily_regen`
present and `≥ day_ago`; non-positive `daily_regeneration`; zero usage in the
window.  Otherwise `inc = daily_regeneration` if the usage reaches it, else
`daily_regeneration - usage`. -/
def dailyStep (db : DB) (dayAgo : DT) (s : Subscription) : Option Int :=
  if s.plan = Plan.freeTrial then none
  else if (match s.last_daily_regen with
           | some t => DT.leb dayAgo t
           | none => false) then none
  else
    let d := dailyRegeneration s.plan
    if d ≤ 0 then none
    else
      let u := dailyUsage db dayAgo s.id
      if u = 0 then none
      else some (if d ≤ u then d else d - u)

/-- The daily job's expiry side effect: `expires_at` present and `now ≥
expires_at` puts the subscription into the status-update batch. -/
def dailyExpiredCheck (now : DT) (s : Subscription) : Bool :=
  match s.expires_at with
  | some e => DT.leb e now
  | none => false

/-- `SubscriptionService.regenerate_daily_ai_processing()`.  Reads all
subscription rows (empty table: the job returns at once); reads the grouped
24-hour debit aggregate with the *default* `raise_http=True`, so when no debit
at all falls in the window `fetch_all` raises 404, the job's `except` clause
rolls back and the whole run is a no-op; otherwise builds the three batches and
applies them: statuses to `expired`, one positive ledger entry per grant
(into `ai_processing_operations`), and the relative balance increments.  The
job never writes `last_daily_regen`. -/
def regenerate_daily_ai_processing (db : DB) (now : DT) : DB :=
  let dayAgo := now.subDay
  if db.subscriptions.isEmpty then db
  else if (db.ops.filter (fun o =>
      o.is_positive == false && DT.ltb dayAgo o.created_at)).isEmpty then db
  else
    let grants := db.subscriptions.filterMap (fun s =>
      (dailyStep db dayAgo s).map (fun inc => (s.id, inc)))
    let statusBatch := (db.subscriptions.filter (dailyExpiredCheck now)).map (fun s => s.id)
    let newOps := grants.map (fun g => LedgerOp.mk g.1 g.2 true now)
    let afterStatus := statusBatch.foldl
      (fun subs sid => subs.map (fun s =>
        if s.id == sid then { s with status := SubStatus.expired } else s))
      db.subscriptions
    let afterGrants := grants.foldl
      (fun subs g => subs.map (fun s =>
        if s.id == g.1 then { s with ai_processing := s.ai_processing + g.2 } else s))
      afterStatus
    { insertOpsMany "ai_processing_operations" newOps db with subscriptions := afterGrants }

/-! ## `SubscriptionService.regenerate_monthly_ai_processing` -/

/-- The monthly job's per-subscription due test, combining the SQL filter
(`status = 'active' AND (expires_at IS NULL OR expires_at > now)`), the loop's
redundant expiry skip, the elapsed-month check `now ≥ (last_monthly_regen or
started_at) + relativedelta(months=1)`, and the positive-allowance check. -/
def monthlyDue (now : DT) (s : Subscription) : Bool :=
  s.status == SubStatus.active
  && (match s.expires_at with
      | none => true
      | some e => DT.ltb now e)
  && !(match s.expires_at with
      | some e => DT.ltb e now
      | none => false)
  && DT.leb ((s.last_monthly_regen.getD s.started_at).addMonths 1) now
  && monthlyRegeneration s.plan > 0

/-- `SubscriptionService.regenerate_monthly_ai_processing()`.  For every due
subscription it batches a ledger insert and a balance/timestamp update.  The
insert statement targets the table `ai_usage_operations` (subscription_service
line 249) — a table `init_db` never creates — with `raise_http=False`, so the
insert silently does nothing; the subsequent `UPDATE subscriptions SET
ai_processing = ai_processing + ?, last_monthly_regen = ?` commits normally. -/
def regenerate_monthly_ai_processing (db : DB) (now : DT) : DB :=
  let due := db.subscriptions.filter (monthlyDue now)
  let inserts := due.map (fun s => LedgerOp.mk s.id (monthlyRegeneration s.plan) true now)
  let db1 := insertOpsMany "ai_usage_operations" inserts db
  { db1 with
    subscriptions := due.foldl
      (fun subs s => subs.map (fun t =>
        if t.id == s.id then
          { t with
            ai_processing := t.ai_processing + monthlyRegeneration s.plan,
            last_monthly_regen := some now }
        else t))
      db1.subscriptions }

/-! ## `SubscriptionService.activate_subscription` -/

/-- Errors `activate_subscription` raises before touching the database:
no subscription row for the user (404), or a target plan whose configured
`monthly_regeneration` is not positive (400). -/
inductive ActivateError
  | notFound
  | invalidPlan
  deriving DecidableEq, Repr

/-- The expiry chosen by `activate_subscription`: fresh `now + months` when the
current plan is the trial or the current status is `expired`; otherwise
`expires_at + months` when `expires_at` is present and still in the future;
otherwise `now + months`. -/
def activateNewExpiry (s : Subscription) (months : Nat) (now : DT) : DT :=
  if s.plan = Plan.freeTrial ∨ s.status = SubStatus.expired then now.addMonths months
  else match s.expires_at with
    | some e => if DT.ltb now e then e.addMonths months else now.addMonths months
    | none => now.addMonths months

/-- `SubscriptionService.activate_subscription(user_id, plan, months)`: on the
reset branch (`ai_processing < 0`) the balance is set to the new plan's
allowance, otherwise the allowance is added; plan, status `active`, the new
expiry and `cancelled_at = NULL` are written, and one positive ledger entry for
the granted amount is inserted (into `ai_processing_operations`, line 423).
Returns the updated database and the re-fetched subscription row. -/
def activate_subscription (db : DB) (userId : String) (plan : Plan) (months : Nat)
    (now : DT) : Except ActivateError (DB × Subscription) :=
  match findSub db userId with
  | none => Except.error ActivateError.notFound
  | some sub =>
    let amount := monthlyRegeneration plan
    if amount ≤ 0 then Except.error ActivateError.invalidPlan
    else
      let resetCounter := sub.ai_processing < 0
      let newExpiry := activateNewExpiry sub months now
      let sub' : Subscription :=
        { sub with
          plan := plan, status := SubStatus.active,
          ai_processing := if resetCounter then amount else sub.ai_processing + amount,
          expires_at := some newExpiry, cancelled_at := none }
      Except.ok
        ({ db with
           subscriptions := db.subscriptions.map (fun s =>
             if s.userId == userId then
               { s with
                 plan := plan, status := SubStatus.active,
                 ai_processing := if resetCounter then amount else s.ai_processing + amount,
                 expires_at := some newExpiry, cancelled_at := none }
             else s),
           ops := db.ops ++ [⟨sub.id, amount, true, now⟩] },
         sub')

/-! ## `OrderService.mark_order_paid` / `mark_order_failed` -/

/-- One row of the `orders` table (the columns the two mark operations read or
write). -/
structure Order where
  id : String
  userId : String
  plan : Plan
  months : Nat
  amount : ℚ
  status : OrderStatus
  payment_provider : Option String
  payment_transaction_id : Option String
  paid_at : Option DT
  deriving DecidableEq, Repr

/-- `SELECT * FROM orders WHERE id = ?` (first row),
i.e. `OrderService.get_order`. -/
def findOrder (odb : List Order) (oid : String) : Option Order :=
  odb.find? (fun o => o.id == oid)

/-- The `HTTPException`s of `mark_order_paid` (404 / 400 / 400 / 400), named
by the specification's taxonomy. -/
inductive PaidError
  | notFound
  | alreadyPaid
  | invalidState
  | amountMismatch
  deriving DecidableEq, Repr

/-- `OrderService.mark_order_paid(order_id, transaction_id, payment_provider,
amount)`: 404 when the order is missing, 400 when already `paid`, 400 when
`cancelled` or `expired`; the amount check `if amount and |amount −
order.amount| > 0.01` runs only when `amount` is truthy (present and
non-zero).  On success the order's status becomes `paid` and `paid_at`,
`payment_transaction_id`, `payment_provider` are stamped. -/
def mark_order_paid (odb : List Order) (oid tid prov : String) (amount : Option ℚ)
    (now : DT) : Except PaidError (List Order × Order) :=
  match findOrder odb oid with
  | none => Except.error PaidError.notFound
  | some o =>
    if o.status = OrderStatus.paid then Except.error PaidError.alreadyPaid
    else if o.status = OrderStatus.cancelled ∨ o.status = OrderStatus.expired then
      Except.error PaidError.invalidState
    else if (match amount with
             | some a => a ≠ 0 && (1 : ℚ)/100 < |a - o.amount|
             | none => false) then
      Except.error PaidError.amountMismatch
    else
      let o' : Order :=
        { o with
          status := OrderStatus.paid, paid_at := some now,
          payment_transaction_id := some tid, payment_provider := some prov }
      Except.ok
        (odb.map (fun x =>
          if x.id == oid then
            { x with
              status := OrderStatus.paid, paid_at := some now,
              payment_transaction_id := some tid, payment_provider := some prov }
          else x),
         o')

/-- The `HTTPException`s of `mark_order_failed`: 404 when the order is
missing, 400 (`"Cannot mark paid order as failed"`) when it is `paid`. -/
inductive FailedError
  | notFound
  | orderPaid
  deriving DecidableEq, Repr

/-- `OrderService.mark_order_failed(order_id, transaction_id)`: the only
status guard rejects `paid`; any other status — `pending`, `failed`,
`cancelled` or `expired` — is overwritten with `failed`, and
`payment_transaction_id` is stamped. -/
def mark_order_failed (odb : List Order) (oid : String) (tid : Option String) :
    Except FailedError (List Order × Order) :=
  match findOrder odb oid with
  | none => Except.error FailedError.notFound
  | some o =>
    if o.status = OrderStatus.paid then Except.error FailedError.orderPaid
    else
      let o' : Order :=
        { o with status := OrderStatus.failed, payment_transaction_id := tid }
      Except.ok
        (odb.map (fun x =>
          if x.id == oid then
            { x with status := OrderStatus.failed, payment_transaction_id := tid }
          else x),
         o')

/-! ## Helper lemmas about the batch-update shapes used by the services -/

section Helpers

variable {α : Type _} {β : Type _}

/-- A fold of per-element `map` updates over a list of batch parameters is the
`map` of the pointwise fold. -/
theorem foldl_map_comm (f : β → α → α) (gs : List β) (l : List α) :
    gs.foldl (fun acc g => acc.map (f g)) l = l.map (fun x => gs.foldl (fun x g => f g x) x) := by
  induction gs generalizing l with
  | nil => simp
  | cons g gs ih =>
    simp only [List.foldl_cons, ih, List.map_map]
    rfl

/-- `find?` commutes with a `map` whose function does not change the value of
the predicate. -/
theorem find?_map_of_pred_inv (F : α → α) (p : α → Bool) (h : ∀ x, p (F x) = p x)
    (l : List α) : (l.map F).find? p = (l.find? p).map F := by
  induction l with
  | nil => rfl
  | cons a l ih =>
    by_cases ha : p a
    · rw [List.find?_cons_of_pos _ ha, List.map_cons,
        List.find?_cons_of_pos _ (by rw [h]; exact ha)]
      rfl
    · rw [List.find?_cons_of_neg _ ha, List.map_cons,
        List.find?_cons_of_neg _ (by rw [h]; exact ha), ih]

/-- In a list whose keys are pairwise distinct, `find?` by the key of a member
returns that member. -/
theorem find?_eq_self_of_nodup_key (key : α → String) (l : List α) (s : α)
    (hnodup : (l.map key).Nodup) (hmem : s ∈ l) :
    l.find? (fun t => key t == key s) = some s := by
  induction l with
  | nil => cases hmem
  | cons a l ih =>
    rw [List.map_cons, List.nodup_cons] at hnodup
    rcases List.mem_cons.1 hmem with rfl | hmem'
    · exact List.find?_cons_of_pos _ (by simp)
    · have hne : key a ≠ key s := fun he => hnodup.1 (he ▸ List.mem_map_of_mem key hmem')
      rw [List.find?_cons_of_neg _ (by simpa using hne)]
      exact ih hnodup.2 hmem'
end Helpers

/-- The daily job's expiry-status fold step preserves both the id and the
balance of a subscription row. -/
theorem statusUpd_fields (sid : String) (x : Subscription) :
    ((if x.id == sid then { x with status := SubStatus.expired } else x).id = x.id
      ∧ (if x.id == sid then { x with status := SubStatus.expired } else x).ai_processing
          = x.ai_processing) := by
  split <;> exact ⟨rfl, rfl⟩

/-- Pointwise status fold: id preserved. -/
theorem statusFold_id (sids : List String) (x : Subscription) :
    (sids.foldl
      (fun y sid => if y.id == sid then { y with status := SubStatus.expired } else y) x).id
      = x.id := by
  induction sids generalizing x with
  | nil => rfl
  | cons sid sids ih =>
    rw [List.foldl_cons, ih]
    exact (statusUpd_fields sid x).1

/-- Pointwise status fold: balance preserved. -/
theorem statusFold_bal (sids : List String) (x : Subscription) :
    (sids.foldl
      (fun y sid => if y.id == sid then { y with status := SubStatus.expired } else y) x).ai_processing
      = x.ai_processing := by
  induction sids generalizing x with
  | nil => rfl
  | cons sid sids ih =>
    rw [List.foldl_cons, ih]
    exact (statusUpd_fields sid x).2

/-- Pointwise grant fold: id preserved. -/
theorem grantFold_id (gs : List (String × Int)) (x : Subscription) :
    (gs.foldl
      (fun y g => if y.id == g.1 then { y with ai_processing := y.ai_processing + g.2 } else y) x).id
      = x.id := by
  induction gs generalizing x with
  | nil => rfl
  | cons g gs ih =>
    rw [List.foldl_cons, ih]
    split <;> rfl

/-- Pointwise grant fold: the balance gains the sum of the batched increments
whose key matches the row's id (`UPDATE ... SET ai_processing = ai_processing
+ ? WHERE id = ?`, executed once per batch entry). -/
theorem grantFold_bal (gs : List (String × Int)) (x : Subscription) :
    (gs.foldl
      (fun y g => if y.id == g.1 then { y with ai_processing := y.ai_processing + g.2 } else y) x).ai_processing
      = x.ai_processing + ((gs.filter (fun g => g.1 == x.id)).map Prod.snd).sum := by
  induction gs generalizing x with
  | nil => simp
  | cons g gs ih =>
    rw [List.foldl_cons]
    by_cases h : x.id = g.1
    · have hb : (x.id == g.1) = true := by simpa using h
      have hb' : (g.1 == x.id) = true := by simpa using h.symm
      simp only [hb, if_true, List.filter_cons, hb', ih, List.map_cons, List.sum_cons]
      ring
    · have hb : (x.id == g.1) = false := by simpa using h
      have hb' : (g.1 == x.id) = false := by simpa using fun he => h he.symm
      simp only [hb, Bool.false_eq_true, if_false, List.filter_cons, hb', ih]

/-- If no row of `l` has the key `sid`, the batched grant list built from `l`
has no entry with key `sid`. -/
theorem grants_filter_nil (f : Subscription → Option Int) (l : List Subscription)
    (sid : String) (h : ∀ t ∈ l, t.id ≠ sid) :
    (l.filterMap (fun t => (f t).map (fun inc => (t.id, inc)))).filter
      (fun g => g.1 == sid) = [] := by
  induction l with
  | nil => rfl
  | cons a l ih =>
    have ha : a.id ≠ sid := h a (List.mem_cons_self a l)
    have ih' := ih (fun t ht => h t (List.mem_cons_of_mem a ht))
    rw [List.filterMap_cons]
    cases hfa : f a with
    | none => exact ih'
    | some inc =>
      simp only [Option.map_some']
      rw [List.filter_cons]
      simpa [ha] using ih'

/-- In a list with pairwise-distinct ids containing `s`, the batched grant
entries keyed by `s.id` are exactly the grant computed from `s` itself. -/
theorem grants_filter_eq (f : Subscription → Option Int) (l : List Subscription)
    (s : Subscription) (hnodup : (l.map (fun t => t.id)).Nodup) (hmem : s ∈ l) :
    (l.filterMap (fun t => (f t).map (fun inc => (t.id, inc)))).filter
      (fun g => g.1 == s.id)
      = (f s).elim [] (fun inc => [(s.id, inc)]) := by
  induction l with
  | nil => cases hmem
  | cons a l ih =>
    rw [List.map_cons, List.nodup_cons] at hnodup
    rcases List.mem_cons.1 hmem with rfl | hmem'
    · have htl : ∀ t ∈ l, t.id ≠ s.id := by
        intro t ht he
        exact hnodup.1 (he ▸ List.mem_map_of_mem (fun t => t.id) ht)
      rw [List.filterMap_cons]
      cases hfa : f s with
      | none => simpa [hfa] using grants_filter_nil f l s.id htl
      | some inc =>
        simp only [Option.map_some', Option.elim]
        rw [List.filter_cons]
        simpa using grants_filter_nil f l s.id htl
    · have ha : a.id ≠ s.id := fun he =>
        hnodup.1 (he ▸ List.mem_map_of_mem (fun t => t.id) hmem')
      rw [List.filterMap_cons]
      cases hfa : f a with
      | none => exact ih hnodup.2 hmem'
      | some inc =>
        simp only [Option.map_some']
        rw [List.filter_cons]
        simpa [ha] using ih hnodup.2 hmem'

/-- Rows with pairwise-distinct ids: two members sharing an id are equal. -/
theorem sub_eq_of_id_eq (l : List Subscription)
    (hnodup : (l.map (fun t => t.id)).Nodup) {a b : Subscription}
    (ha : a ∈ l) (hb : b ∈ l) (hid : a.id = b.id) : a = b :=
  List.inj_on_of_nodup_map hnodup ha hb hid

/-! ## Concrete scenarios used by the closed theorems and witnesses -/

/-- 2025-01-10 00:00 UTC. -/
def tJan10 : DT := ⟨2025, 1, 10, 0⟩

/-- 2025-02-10 00:00 UTC: exactly one calendar month after `tJan10`. -/
def tFeb10 : DT := ⟨2025, 2, 10, 0⟩

/-- 2025-02-20 00:00 UTC: within the same due period as `tFeb10`. -/
def tFeb20 : DT := ⟨2025, 2, 20, 0⟩

/-- A database holding one standard 3-month subscription freshly created at
`tJan10`: balance 200, one +200 ledger entry, `last_monthly_regen = tJan10`,
expiry 2025-04-10. -/
def dbCreated : DB := create_subscription emptyDB "s1" "u1" Plan.standard (some 3) tJan10

/-- Noon-ish timestamps for the daily-job scenarios. -/
def tMar10 : DT := ⟨2025, 3, 10, 120⟩

/-- A debit of 3 recorded 2025-03-09 10:00, inside the 24-hour window that
precedes `tMar10`. -/
def opDebit3 : LedgerOp := ⟨"d1", 3, false, ⟨2025, 3, 9, 600⟩⟩

/-- One active standard subscription with balance 5, `last_daily_regen` NULL,
and 3 debits in the last 24 hours — the specification's daily-job scenario. -/
def dbDaily : DB :=
  ⟨[⟨"d1", "v1", Plan.standard, SubStatus.active, 5, some tJan10, none, tJan10, none, none⟩],
   [opDebit3]⟩

/-- The same daily scenario, except `last_daily_regen = tMar10` (within the
current day), which makes the job skip the subscription. -/
def dbDailySkipped : DB :=
  ⟨[⟨"d2", "v2", Plan.standard, SubStatus.active, 5, some tJan10, some tMar10, tJan10, none, none⟩],
   [⟨"d2", 3, false, ⟨2025, 3, 9, 600⟩⟩]⟩

/-- A standard subscription whose status is `cancelled`, balance 10. -/
def dbCancelled : DB :=
  ⟨[⟨"c1", "w1", Plan.standard, SubStatus.cancelled, 10, some tJan10, none, tJan10, none, none⟩], []⟩

/-- An active standard subscription with balance 1. -/
def dbLowBalance : DB :=
  ⟨[⟨"l1", "u1", Plan.standard, SubStatus.active, 1, some tJan10, none, tJan10, none, none⟩], []⟩

/-- A cancelled standard subscription whose expiry 2025-08-01 is still in the
future at `tJun1`. -/
def dbCancelledFuture : DB :=
  ⟨[⟨"a1", "x1", Plan.standard, SubStatus.cancelled, 50, some tJan10, none, tJan10,
     some ⟨2025, 8, 1, 0⟩, some tFeb10⟩], []⟩

/-- 2025-06-01 00:00 UTC. -/
def tJun1 : DT := ⟨2025, 6, 1, 0⟩

/-- An expired free-trial subscription for the activation witness. -/
def dbTrialExpired : DB :=
  ⟨[⟨"e1", "y1", Plan.freeTrial, SubStatus.expired, 3, some tJan10, none, tJan10,
     some ⟨2025, 1, 17, 0⟩, none⟩], []⟩

/-- A pending standard 12-month order for 9600. -/
def orderPending : Order :=
  ⟨"o1", "x1", Plan.standard, 12, 9600, OrderStatus.pending, none, none, none⟩

/-- A cancelled order, for the `failed`-status round trip. -/
def orderCancelled : Order :=
  ⟨"o2", "x1", Plan.standard, 12, 9600, OrderStatus.cancelled, none, none, none⟩

/-! ## Claim theorems -/

/-- C1.  The claim states that after any completed operation every
subscription's stored balance equals the signed sum of its ledger entries.
The code violates it: the monthly regeneration job writes its ledger entries
with `INSERT INTO ai_usage_operations ...` (subscription_service.py line 249),
a table `init_db` never creates, under `raise_http=False`, so the insert
silently fails while the balance update commits.  Concretely: a subscription
created at 2025-01-10 satisfies the invariant (balance 200 = ledger 200); one
monthly-regeneration run at 2025-02-10 leaves balance 400 against a ledger sum
of 200. -/
theorem monthly_regen_breaks_ledger_invariant :
    ledgerInvariant dbCreated
      ∧ ¬ ledgerInvariant (regenerate_monthly_ai_processing dbCreated tFeb10)
      ∧ getBal (regenerate_monthly_ai_processing dbCreated tFeb10) "s1" = some 400
      ∧ ledgerSum (regenerate_monthly_ai_processing dbCreated tFeb10) "s1" = 200 := by
  exact ⟨by decide, by decide, by decide, by decide⟩

/-- C3.  The claim states that spend surfaces `NotFound` (no subscription),
`Forbidden` (status not active) and `InsufficientBalance` (balance < amount)
directly to the caller.  The code violates it: every guard `HTTPException` is
caught by `save_ai_usage_operation`'s blanket `except Exception` handler; on
the no-subscription path the handler crashes on the unbound local `sub_id`
(an `UnboundLocalError` escapes), and on the other two paths the handler
re-raises `HTTPException(500, ...)`.  No caller ever receives the specific
404/403/403 error. -/
theorem spend_error_kinds_not_surfaced :
    (save_ai_usage_operation emptyDB "u9" 1 tFeb10).1 = some SpendError.nameError
      ∧ (save_ai_usage_operation dbCancelled "w1" 1 tFeb10).1
          = some (SpendError.http 500 FailKind.forbidden)
      ∧ (save_ai_usage_operation dbLowBalance "u1" 2 tFeb10).1
          = some (SpendError.http 500 FailKind.insufficientBalance) := by
  exact ⟨rfl, rfl, rfl⟩

/-- C4.  The claim states that a due monthly run grants the allowance, updates
`last_monthly_regen`, and records a matching credit ledger entry, with
not-yet-due subscriptions untouched.  The grant, the timestamp update and the
second-run idempotence all hold, but no ledger entry is ever recorded: the
insert targets the nonexistent table `ai_usage_operations` and silently fails.
Concretely, at 2025-02-10 the subscription created 2025-01-10 is granted 200
(balance 200 → 400) and stamped, the ledger is unchanged, and a second run at
2025-02-20 changes nothing. -/
theorem monthly_regen_grants_without_ledger_entry :
    getBal (regenerate_monthly_ai_processing dbCreated tFeb10) "s1" = some 400
      ∧ getLastMonthly (regenerate_monthly_ai_processing dbCreated tFeb10) "s1"
          = some (some tFeb10)
      ∧ (regenerate_monthly_ai_processing dbCreated tFeb10).ops = dbCreated.ops
      ∧ regenerate_monthly_ai_processing (regenerate_monthly_ai_processing dbCreated tFeb10) tFeb20
          = regenerate_monthly_ai_processing dbCreated tFeb10 := by
  exact ⟨by decide, by decide, by decide, by decide⟩

/-- C6.  The claim states the daily job is idempotent per subscription per
day because subscriptions with `last_daily_regen` within the current day are
skipped.  The code violates it: the job checks `last_daily_regen` but never
writes it, so a second run in the same day grants again.  Concretely: balance
5, daily allowance 5, usage 3 → the first run at 2025-03-10 02:00 grants 2
(balance 7), leaves `last_daily_regen` NULL, and an immediate second run
grants 2 more (balance 9). -/
theorem daily_regen_double_grants :
    getBal (regenerate_daily_ai_processing dbDaily tMar10) "d1" = some 7
      ∧ getLastDaily (regenerate_daily_ai_processing dbDaily tMar10) "d1" = some none
      ∧ getBal (regenerate_daily_ai_processing
          (regenerate_daily_ai_processing dbDaily tMar10) tMar10) "d1" = some 9 := by
  exact ⟨by decide, by decide, by decide⟩

/-- C5 counterexample.  The claim says the additive branch
(`current expires_at + months`) applies only when the subscription is
currently *active* and paid with a future expiry, and that *every other case*
gets `now + months`.  A cancelled standard subscription with a future expiry
is such an "other case", yet `activate_subscription` extends its old expiry:
with status `cancelled`, expiry 2025-08-01, `now` = 2025-06-01 and 2 months,
the code returns expiry 2025-10-01, not `now + 2` = 2025-08-01. -/
theorem activate_cancelled_uses_additive_expiry :
    (findSub dbCancelledFuture "x1").map (fun s => (s.plan, s.status))
        = some (Plan.standard, SubStatus.cancelled)
      ∧ (match activate_subscription dbCancelledFuture "x1" Plan.standard 2 tJun1 with
         | Except.ok p => p.2.expires_at
         | Except.error _ => none) = some ⟨2025, 10, 1, 0⟩
      ∧ (⟨2025, 10, 1, 0⟩ : DT) ≠ tJun1.addMonths 2 := by
  exact ⟨by decide, by decide, by decide⟩

/-- C7 counterexample.  The claim quantifies over every non-trial subscription
with a positive daily allowance and non-zero 24-hour usage and asserts the
grant formula; but a subscription that additionally has `last_daily_regen`
within the last 24 hours is skipped and granted nothing.  Concretely: standard
plan (allowance 5), usage 3, balance 5, `last_daily_regen` = now → the claim
predicts balance 7, the job leaves balance 5. -/
theorem daily_regen_skips_recently_regenerated :
    (findSub dbDailySkipped "v2").map (fun s => s.plan) = some Plan.standard
      ∧ dailyRegeneration Plan.standard = 5
      ∧ dailyUsage dbDailySkipped tMar10.subDay "d2" = 3
      ∧ getBal dbDailySkipped "d2" = some 5
      ∧ getBal (regenerate_daily_ai_processing dbDailySkipped tMar10) "d2" ≠ some 7 := by
  exact ⟨by decide, by decide, by decide, by decide, by decide⟩

/-- C8 counterexample.  The claim says `markPaid` fails with `AmountMismatch`
whenever `|amount − order.amount| > 0.01`; but the check is guarded by
`if amount and ...`, so a reported amount of `0` (falsy in Python) bypasses
it: marking a pending 9600-UZS order paid with amount 0 succeeds even though
`|0 − 9600| > 0.01`. -/
theorem mark_paid_zero_amount_bypasses_check :
    (1 : ℚ)/100 < |(0 : ℚ) - orderPending.amount|
      ∧ (match mark_order_paid [orderPending] "o1" "tx" "click" (some 0) tFeb10 with
         | Except.ok p => some p.2.status
         | Except.error _ => none) = some OrderStatus.paid := by
  constructor
  · norm_num [orderPending]
  · decide

/-- The nested `if months >= 12 / >= 6 / >= 3` discount chain of the code
computes the range-based schedule of the specification. -/
theorem orderDiscount_eq_specDiscount (months : Nat) :
    orderDiscount months = specDiscount months := by
  unfold orderDiscount specDiscount
  split_ifs <;> first | rfl | (exfalso; omega)

/-- C9.  For every plan and months in 1..24, the order amount is
`unit_price × months` discounted by 0% under 3 months, 5% for 3–5, 10% for
6–11 and 20% for 12+, rounded to 2 decimals; in particular standard × 12
(price 1000/month) comes to 9600.00. -/
theorem order_amount_tiered_discount (plan : Plan) (months : Nat)
    (h1 : 1 ≤ months) (h2 : months ≤ 24) :
    calculate_order_amount plan months
        = round2 (PRICING plan * months * (1 - specDiscount months))
      ∧ calculate_order_amount Plan.standard 12 = 9600 := by
  constructor
  · unfold calculate_order_amount
    rw [orderDiscount_eq_specDiscount]
  · simp only [calculate_order_amount, round2, PRICING, orderDiscount]
    norm_num

/-- Witness for C9 at plan standard, months = 12. -/
theorem order_amount_tiered_discount_witness :
    (1 ≤ 12 ∧ 12 ≤ 24)
      ∧ calculate_order_amount Plan.standard 12
          = round2 (PRICING Plan.standard * 12 * (1 - specDiscount 12)) :=
  ⟨⟨by decide, by decide⟩,
   (order_amount_tiered_discount Plan.standard 12 (by decide) (by decide)).1⟩

/-- C2.  A spend with `balance < amount` on an active subscription fails —
the surfaced exception is the handler's HTTP 500 wrapping the
insufficient-balance guard (see the C3 theorem for the wrapping itself) — and
leaves the database (balance and ledger) unchanged; any failing spend leaves
the database unchanged; and a successful spend implies `amount ≤ balance`,
with the resulting balance `balance - amount ≥ 0`: spend never completes
successfully with a negative resulting balance. -/
theorem spend_insufficient_fails_and_never_overdraws
    (db : DB) (uid : String) (amt : Int) (now : DT) (s : Subscription)
    (hnodup : (db.subscriptions.map (fun t => t.id)).Nodup)
    (hfind : findSub db uid = some s)
    (hact : s.status = SubStatus.active) :
    (s.ai_processing < amt →
      save_ai_usage_operation db uid amt now
        = (some (SpendError.http 500 FailKind.insufficientBalance), db))
      ∧ (∀ e db', save_ai_usage_operation db uid amt now = (some e, db') → db' = db)
      ∧ (∀ db', save_ai_usage_operation db uid amt now = (none, db') →
          amt ≤ s.ai_processing
            ∧ ∀ t ∈ db'.subscriptions, t.id = s.id →
                t.ai_processing = s.ai_processing - amt ∧ 0 ≤ t.ai_processing) := by
  have hmem : s ∈ db.subscriptions := List.mem_of_find?_eq_some hfind
  have hstat : ¬ s.status ≠ SubStatus.active := by simp [hact]
  by_cases hlt : s.ai_processing < amt
  · have hres : save_ai_usage_operation db uid amt now
        = (some (SpendError.http 500 FailKind.insufficientBalance), db) := by
      simp only [save_ai_usage_operation, spendInner, hfind]
      rw [if_neg hstat, if_pos hlt]
    refine ⟨fun _ => hres, fun e db' h => ?_, fun db' h => ?_⟩
    · rw [hres, Prod.mk.injEq] at h
      exact h.2.symm
    · rw [hres, Prod.mk.injEq] at h
      exact absurd h.1 (by simp)
  · have hres : save_ai_usage_operation db uid amt now
        = (none,
           { db with
             ops := db.ops ++ [⟨s.id, amt, false, now⟩],
             subscriptions := db.subscriptions.map (fun t =>
               if t.id == s.id then { t with ai_processing := t.ai_processing - amt }
               else t) }) := by
      simp only [save_ai_usage_operation, spendInner, hfind]
      rw [if_neg hstat, if_neg hlt]
    refine ⟨fun h => absurd h hlt, fun e db' h => ?_, fun db' h => ?_⟩
    · rw [hres, Prod.mk.injEq] at h
      exact absurd h.1.symm (by simp)
    · rw [hres, Prod.mk.injEq] at h
      have hdb' : db' = { db with
          ops := db.ops ++ [⟨s.id, amt, false, now⟩],
          subscriptions := db.subscriptions.map (fun t =>
            if t.id == s.id then { t with ai_processing := t.ai_processing - amt }
            else t) } :=
        h.2.symm
      refine ⟨le_of_not_lt hlt, fun t ht hid => ?_⟩
      rw [hdb'] at ht
      rcases List.mem_map.1 ht with ⟨t0, ht0, rfl⟩
      by_cases hb : t0.id = s.id
      · have ht0s : t0 = s := sub_eq_of_id_eq db.subscriptions hnodup ht0 hmem hb
        subst ht0s
        have hbt : (t0.id == t0.id) = true := by simp
        rw [if_pos hbt]
        refine ⟨rfl, ?_⟩
        show 0 ≤ t0.ai_processing - amt
        omega
      · have hbf : (t0.id == s.id) = false := by simpa using hb
        simp only [hbf, Bool.false_eq_true, if_false] at hid
        exact absurd hid hb

/-- Witness for C2: an active subscription with balance 1 spending 2 fails
with the wrapped insufficient-balance error and leaves the database
unchanged. -/
theorem spend_insufficient_fails_and_never_overdraws_witness :
    save_ai_usage_operation dbLowBalance "u1" 2 tFeb10
      = (some (SpendError.http 500 FailKind.insufficientBalance), dbLowBalance) :=
  (spend_insufficient_fails_and_never_overdraws dbLowBalance "u1" 2 tFeb10
      ⟨"l1", "u1", Plan.standard, SubStatus.active, 1, some tJan10, none, tJan10, none, none⟩
      (by decide) (by decide) (by decide)).1 (by decide)

/-- The expiry rule as amended: `expires_at + months` whenever the current
plan is not the trial, the current status is not `expired`, and the stored
expiry is strictly in the future — regardless of whether the status is
`active` or `cancelled` — and `now + months` in every other case. -/
def specNewExpiry (s : Subscription) (months : Nat) (now : DT) : DT :=
  match s.expires_at with
  | some e =>
    if s.plan ≠ Plan.freeTrial ∧ s.status ≠ SubStatus.expired ∧ DT.ltb now e then
      e.addMonths months
    else now.addMonths months
  | none => now.addMonths months

/-- The grant rule of the claim: reset to the new plan's monthly allowance on
a negative balance, otherwise add the allowance. -/
def specGrantBalance (s : Subscription) (plan : Plan) : Int :=
  if s.ai_processing < 0 then monthlyRegeneration plan
  else s.ai_processing + monthlyRegeneration plan

/-- The code's expiry decision agrees with the amended rule. -/
theorem activateNewExpiry_eq_spec (s : Subscription) (months : Nat) (now : DT) :
    activateNewExpiry s months now = specNewExpiry s months now := by
  unfold activateNewExpiry specNewExpiry
  rcases s.expires_at with - | e
  · split <;> rfl
  · by_cases h1 : s.plan = Plan.freeTrial ∨ s.status = SubStatus.expired
    · have hc : ¬ (s.plan ≠ Plan.freeTrial ∧ s.status ≠ SubStatus.expired ∧ DT.ltb now e) := by
        rintro ⟨hp, hs, -⟩
        rcases h1 with h1 | h1
        · exact hp h1
        · exact hs h1
      rw [if_pos h1]
      show now.addMonths months = if _ then e.addMonths months else now.addMonths months
      rw [if_neg hc]
    · push_neg at h1
      rw [if_neg (by rintro (h | h) <;> [exact h1.1 h; exact h1.2 h])]
      by_cases hlt : DT.ltb now e
      · show (if DT.ltb now e = true then _ else _) = if _ then e.addMonths months else _
        rw [if_pos hlt, if_pos ⟨h1.1, h1.2, hlt⟩]
      · have hc : ¬ (s.plan ≠ Plan.freeTrial ∧ s.status ≠ SubStatus.expired ∧ DT.ltb now e) := by
          rintro ⟨-, -, h⟩
          exact hlt h
        show (if DT.ltb now e = true then _ else _) = if _ then e.addMonths months else _
        rw [if_neg hlt, if_neg hc]

/-- C5 (amended).  `activate_subscription` returns the subscription with the
target plan, status `active`, `cancelled_at` cleared, expiry per
`specNewExpiry` (fresh `now + months` for trial plans or expired status;
`expires_at + months` for any non-trial, non-expired subscription with a
future expiry, cancelled included; `now + months` otherwise) and balance per
`specGrantBalance` (reset to the new plan's monthly allowance when negative,
otherwise allowance added). -/
theorem activate_expiry_and_grant (db : DB) (uid : String) (plan : Plan)
    (months : Nat) (now : DT) (s : Subscription)
    (hfind : findSub db uid = some s) :
    (activate_subscription db uid plan months now).toOption.map Prod.snd
      = some { s with
          plan := plan, status := SubStatus.active,
          ai_processing := specGrantBalance s plan,
          expires_at := some (specNewExpiry s months now),
          cancelled_at := none } := by
  have hpos : ¬ monthlyRegeneration plan ≤ 0 := by cases plan <;> decide
  simp only [activate_subscription, hfind]
  rw [if_neg hpos]
  simp only [Except.toOption, Option.map_some']
  rw [activateNewExpiry_eq_spec]
  rfl

/-- Witness for C5: activating standard × 3 at 2025-02-10 on an expired trial
subscription (balance 3) yields a fresh expiry 2025-05-10 and balance 203. -/
theorem activate_expiry_and_grant_witness :
    (activate_subscription dbTrialExpired "y1" Plan.standard 3 tFeb10).toOption.map Prod.snd
      = some ⟨"e1", "y1", Plan.standard, SubStatus.active, 203, some tJan10, none, tJan10,
              some ⟨2025, 5, 10, 0⟩, none⟩ := by
  have h := activate_expiry_and_grant dbTrialExpired "y1" Plan.standard 3 tFeb10
    ⟨"e1", "y1", Plan.freeTrial, SubStatus.expired, 3, some tJan10, none, tJan10,
     some ⟨2025, 1, 17, 0⟩, none⟩ (by decide)
  rw [h]
  decide

/-- C8 (amended).  `mark_order_paid` fails with `NotFound` when no order
exists, `AlreadyPaid` when the status is already `paid` (and after any
successful call, a repeat call fails with `AlreadyPaid`, so the credit grant
guarded by it is issued at most once), `InvalidState` when the status is
`cancelled` or `expired`, and `AmountMismatch` when a *non-zero* amount is
supplied with `|amount − order.amount| > 0.01` — a zero or omitted amount
bypasses the check (`if amount and ...`). -/
theorem mark_paid_guards (odb : List Order) (oid tid prov : String)
    (amount : Option ℚ) (now : DT) :
    (findOrder odb oid = none →
      mark_order_paid odb oid tid prov amount now = Except.error PaidError.notFound)
      ∧ ∀ o, findOrder odb oid = some o →
          (o.status = OrderStatus.paid →
            mark_order_paid odb oid tid prov amount now = Except.error PaidError.alreadyPaid)
          ∧ (o.status = OrderStatus.cancelled ∨ o.status = OrderStatus.expired →
            mark_order_paid odb oid tid prov amount now = Except.error PaidError.invalidState)
          ∧ (∀ a, amount = some a → a ≠ 0 → (1 : ℚ)/100 < |a - o.amount| →
              o.status ≠ OrderStatus.paid → o.status ≠ OrderStatus.cancelled →
              o.status ≠ OrderStatus.expired →
              mark_order_paid odb oid tid prov amount now
                = Except.error PaidError.amountMismatch)
          ∧ (∀ odb' o', mark_order_paid odb oid tid prov amount now = Except.ok (odb', o') →
              o'.status = OrderStatus.paid
                ∧ mark_order_paid odb' oid tid prov amount now
                    = Except.error PaidError.alreadyPaid) := by
  constructor
  · intro hnone
    simp only [mark_order_paid, hnone]
  · intro o hfind
    have hfind0 : odb.find? (fun x => x.id == oid) = some o := hfind
    have hpred : (o.id == oid) = true := by
      have hps := List.find?_some hfind0
      simpa using hps
    refine ⟨fun hp => ?_, fun hce => ?_, fun a ha hz hmis hp hc he => ?_, fun odb' o' hok => ?_⟩
    · simp only [mark_order_paid, hfind]
      rw [if_pos hp]
    · simp only [mark_order_paid, hfind]
      rw [if_neg (fun hp => by rcases hce with h | h <;> rw [hp] at h <;> cases h),
        if_pos hce]
    · simp only [mark_order_paid, hfind]
      rw [if_neg hp, if_neg (by rintro (h | h) <;> [exact hc h; exact he h]),
        if_pos (by subst ha; simp only [hz, hmis, decide_True]; simp [hz, hmis])]
    · have hupd : ∀ x : Order, ((if x.id == oid then
          { x with
            status := OrderStatus.paid, paid_at := some now,
            payment_transaction_id := some tid, payment_provider := some prov }
          else x).id == oid) = (x.id == oid) := by
        intro x
        split <;> rfl
      simp only [mark_order_paid, hfind] at hok
      split at hok
      · cases hok
      split at hok
      · cases hok
      split at hok
      · cases hok
      have hok' := hok.symm
      rw [Except.ok.injEq, Prod.mk.injEq] at hok'
      refine ⟨by rw [hok'.2], ?_⟩
      have hfind' : findOrder odb' oid = some
          { o with
            status := OrderStatus.paid, paid_at := some now,
            payment_transaction_id := some tid, payment_provider := some prov } := by
        rw [hok'.1]
        unfold findOrder
        rw [find?_map_of_pred_inv _ _ hupd]
        unfold findOrder at hfind
        rw [hfind, Option.map_some']
        congr 1
        rw [if_pos hpred]
      simp only [mark_order_paid, hfind']
      rfl

/-- Witness for C8: a pending 9600-UZS order marked paid with a non-zero
mismatching amount 9700 fails with `AmountMismatch`. -/
theorem mark_paid_guards_witness :
    mark_order_paid [orderPending] "o1" "tx" "click" (some 9700) tFeb10
      = Except.error PaidError.amountMismatch := by
  have h := (mark_paid_guards [orderPending] "o1" "tx" "click" (some 9700) tFeb10).2
    orderPending (by decide)
  exact h.2.2.1 9700 rfl (by norm_num) (by norm_num [orderPending])
    (by decide) (by decide) (by decide)

/-- C10.  The implementation's fifth order status `failed` sits outside the
spec's `pending → paid | cancelled | expired` machine: `mark_order_failed`
moves *any* non-`paid` order — `cancelled` and `expired` included — to
`failed`, and the resulting `failed` order passes every guard of
`mark_order_paid` (called here without an amount) and is marked `paid`, so
`cancelled` and `expired` are not terminal. -/
theorem failed_status_escapes_state_machine (odb : List Order) (oid : String)
    (tid : Option String) (tid2 prov : String) (now : DT) (o : Order)
    (hfind : findOrder odb oid = some o) (hnp : o.status ≠ OrderStatus.paid) :
    (mark_order_failed odb oid tid).toOption.map (fun p => p.2.status)
        = some OrderStatus.failed
      ∧ ∀ odb' o', mark_order_failed odb oid tid = Except.ok (odb', o') →
          (mark_order_paid odb' oid tid2 prov none now).toOption.map
              (fun p => p.2.status)
            = some OrderStatus.paid := by
  have hfind0 : odb.find? (fun x => x.id == oid) = some o := hfind
  have hpred : (o.id == oid) = true := by
    have hps := List.find?_some hfind0
    simpa using hps
  have hres : mark_order_failed odb oid tid
      = Except.ok
          (odb.map (fun x =>
            if x.id == oid then
              { x with status := OrderStatus.failed, payment_transaction_id := tid }
            else x),
           { o with status := OrderStatus.failed, payment_transaction_id := tid }) := by
    simp only [mark_order_failed, hfind]
    rw [if_neg hnp]
  constructor
  · rw [hres]
    rfl
  · intro odb' o' hok
    rw [hres, Except.ok.injEq, Prod.mk.injEq] at hok
    have hfind' : findOrder odb' oid = some
        { o with status := OrderStatus.failed, payment_transaction_id := tid } := by
      rw [← hok.1]
      unfold findOrder
      rw [find?_map_of_pred_inv _ _ (fun x => by split <;> rfl)]
      unfold findOrder at hfind
      rw [hfind, Option.map_some']
      congr 1
      rw [if_pos hpred]
    simp only [mark_order_paid, hfind']
    rfl

/-- Witness for C10: a cancelled order is marked `failed`, then successfully
marked `paid`. -/
theorem failed_status_escapes_state_machine_witness :
    (mark_order_failed [orderCancelled] "o2" none).toOption.map (fun p => p.2.status)
      = some OrderStatus.failed := by
  exact (failed_status_escapes_state_machine [orderCancelled] "o2" none "tx2" "click"
    tFeb10 orderCancelled (by decide) (by decide)).1

/-- C7 (amended).  For every subscription that the daily job processes — not
on the trial plan, **not skipped for a `last_daily_regen` within the last 24
hours** (the condition the claim omits), with a positive configured daily
allowance and non-zero debits over the last 24 hours — the granted increment
is exactly `daily_allowance` when `usage ≥ daily_allowance` and
`daily_allowance − usage` otherwise, applied as a relative increment to the
balance. -/
theorem daily_grant_formula (db : DB) (now : DT) (s : Subscription)
    (hmem : s ∈ db.subscriptions)
    (hnodup : (db.subscriptions.map (fun t => t.id)).Nodup)
    (hplan : ¬ s.plan = Plan.freeTrial)
    (hskip : (match s.last_daily_regen with
              | some t => DT.leb now.subDay t
              | none => false) = false)
    (hd : 0 < dailyRegeneration s.plan)
    (hu : dailyUsage db now.subDay s.id ≠ 0) :
    getBal (regenerate_daily_ai_processing db now) s.id
      = some (s.ai_processing +
          (if dailyRegeneration s.plan ≤ dailyUsage db now.subDay s.id
           then dailyRegeneration s.plan
           else dailyRegeneration s.plan - dailyUsage db now.subDay s.id)) := by
  have hstep : dailyStep db now.subDay s
      = some (if dailyRegeneration s.plan ≤ dailyUsage db now.subDay s.id
              then dailyRegeneration s.plan
              else dailyRegeneration s.plan - dailyUsage db now.subDay s.id) := by
    unfold dailyStep
    rw [if_neg hplan, if_neg (by rw [hskip]; exact Bool.false_ne_true),
      if_neg (by omega), if_neg hu]
  have hne : ¬ db.subscriptions.isEmpty = true := by
    intro hemp
    rw [List.isEmpty_iff.1 hemp] at hmem
    cases hmem
  have hops : ¬ (db.ops.filter (fun o =>
      o.is_positive == false && DT.ltb now.subDay o.created_at)).isEmpty = true := by
    intro hemp
    apply hu
    unfold dailyUsage
    have hq : db.ops.filter (fun o =>
        o.subscription_id == s.id && o.is_positive == false
          && DT.ltb now.subDay o.created_at) = [] := by
      rw [List.filter_eq_nil_iff]
      intro o ho hp
      have hglob := List.filter_eq_nil_iff.1 (List.isEmpty_iff.1 hemp) o ho
      apply hglob
      simp only [Bool.and_eq_true] at hp ⊢
      exact ⟨hp.1.2, hp.2⟩
    rw [hq]
    rfl
  simp only [regenerate_daily_ai_processing]
  rw [if_neg hne, if_neg hops]
  rw [foldl_map_comm, foldl_map_comm, List.map_map]
  simp only [getBal]
  rw [find?_map_of_pred_inv _ (fun (t : Subscription) => t.id == s.id)
      (by
        intro x
        simp only [Function.comp_apply]
        rw [grantFold_id, statusFold_id])]
  rw [find?_eq_self_of_nodup_key (fun t => t.id) db.subscriptions s hnodup hmem]
  rw [Option.map_some', Option.map_some', Function.comp_apply]
  rw [grantFold_bal, statusFold_bal, statusFold_id]
  rw [grants_filter_eq (dailyStep db now.subDay) db.subscriptions s hnodup hmem]
  rw [hstep]
  simp

/-- Witness for C7: the specification's scenario — balance 5, daily allowance
5, usage 3 in the last 24 hours — receives a grant of 2, ending at balance
7. -/
theorem daily_grant_formula_witness :
    getBal (regenerate_daily_ai_processing dbDaily tMar10) "d1" = some 7 := by
  have h := daily_grant_formula dbDaily tMar10
    ⟨"d1", "v1", Plan.standard, SubStatus.active, 5, some tJan10, none, tJan10, none, none⟩
    (by decide) (by decide) (by decide) (by decide) (by decide) (by decide)
  rw [h]
  decide

end DocVision
